import Mathlib

/-!
Shallow embedding of the metrics engine of `src/app.py` (`compute_metrics`).

Modelling choices, stated once:

* Column values are IEEE-style floats. Finite floats are modelled by exact
  rationals (`ℚ`); the special values produced by division by zero are
  modelled symbolically by the extra constructors `PF.nan`, `PF.inf`,
  `PF.ninf`. The arithmetic operations used by the source (`+`, `-`, `*`,
  `/`, `abs`, `clip`) are given their IEEE propagation rules on these
  special values. Signed zeros are collapsed to the single zero of `ℚ`;
  the theorems whose IEEE counterpart would depend on the sign of a zero
  divisor therefore carry nonnegativity hypotheses on the input column
  (the spec's data model declares `budget` and `population` nonnegative).
* A raw cell of the uploaded table either parses as a float (`Cell.num q`)
  or fails float parsing (`Cell.nonnum`); `astype(float)` on a column
  raises on the first non-parsable cell, which is modelled by
  `Except.error`.
* The source mutates the frame it is given (`df['budget'] = ...` assigns
  columns in place) and returns that same frame object. This is modelled
  by explicit state passing: `compute_metrics` returns a `CMResult` whose
  `frame` field is the final state of the frame object — which, by the
  in-place semantics of the source, is also what the caller's own table
  holds after the call — and whose `err` field records a raised exception,
  with `frame` then holding the state at the point of the raise.
-/

namespace Civic

/-- Pandas float value: a finite rational, or one of the special values
NaN, +Infinity, -Infinity produced by division by zero. -/
inductive PF where
  | fin : ℚ → PF
  | nan : PF
  | inf : PF
  | ninf : PF
deriving DecidableEq, Repr

/-- IEEE negation. -/
def PF.neg : PF → PF
  | PF.fin a => PF.fin (-a)
  | PF.nan => PF.nan
  | PF.inf => PF.ninf
  | PF.ninf => PF.inf

/-- IEEE addition: NaN propagates, opposite infinities give NaN. -/
def PF.add : PF → PF → PF
  | PF.nan, _ => PF.nan
  | _, PF.nan => PF.nan
  | PF.fin a, PF.fin b => PF.fin (a + b)
  | PF.inf, PF.ninf => PF.nan
  | PF.ninf, PF.inf => PF.nan
  | PF.inf, _ => PF.inf
  | _, PF.inf => PF.inf
  | PF.ninf, _ => PF.ninf
  | _, PF.ninf => PF.ninf

/-- IEEE subtraction. -/
def PF.sub (a b : PF) : PF := a.add b.neg

/-- IEEE multiplication: NaN propagates, infinity times zero is NaN. -/
def PF.mul : PF → PF → PF
  | PF.nan, _ => PF.nan
  | _, PF.nan => PF.nan
  | PF.fin a, PF.fin b => PF.fin (a * b)
  | PF.inf, PF.fin b => if b = 0 then PF.nan else if 0 < b then PF.inf else PF.ninf
  | PF.fin a, PF.inf => if a = 0 then PF.nan else if 0 < a then PF.inf else PF.ninf
  | PF.ninf, PF.fin b => if b = 0 then PF.nan else if 0 < b then PF.ninf else PF.inf
  | PF.fin a, PF.ninf => if a = 0 then PF.nan else if 0 < a then PF.ninf else PF.inf
  | PF.inf, PF.inf => PF.inf
  | PF.inf, PF.ninf => PF.ninf
  | PF.ninf, PF.inf => PF.ninf
  | PF.ninf, PF.ninf => PF.inf

/-- IEEE division, as pandas performs it elementwise: division by zero
does not raise; `0/0` is NaN and `x/0` is a signed infinity. -/
def PF.div : PF → PF → PF
  | PF.nan, _ => PF.nan
  | _, PF.nan => PF.nan
  | PF.fin a, PF.fin b =>
      if b = 0 then (if a = 0 then PF.nan else if 0 < a then PF.inf else PF.ninf)
      else PF.fin (a / b)
  | PF.fin _, PF.inf => PF.fin 0
  | PF.fin _, PF.ninf => PF.fin 0
  | PF.inf, PF.fin b => if 0 ≤ b then PF.inf else PF.ninf
  | PF.ninf, PF.fin b => if 0 ≤ b then PF.ninf else PF.inf
  | PF.inf, PF.inf => PF.nan
  | PF.inf, PF.ninf => PF.nan
  | PF.ninf, PF.inf => PF.nan
  | PF.ninf, PF.ninf => PF.nan

/-- Absolute value; `abs` of NaN is NaN. -/
def PF.abs : PF → PF
  | PF.fin a => PF.fin |a|
  | PF.nan => PF.nan
  | PF.inf => PF.inf
  | PF.ninf => PF.inf

/-- Pandas `Series.clip(lower=0.0, upper=1.0)` on one value: finite values
are clamped into the interval, infinities become the bounds, NaN stays NaN. -/
def PF.clip01 : PF → PF
  | PF.fin a => PF.fin (min (max a 0) 1)
  | PF.nan => PF.nan
  | PF.inf => PF.fin 1
  | PF.ninf => PF.fin 0

/-- True exactly on finite values (neither NaN nor an infinity). -/
def PF.isFinite : PF → Bool
  | PF.fin _ => true
  | PF.nan => false
  | PF.inf => false
  | PF.ninf => false

/-- A raw cell of an uploaded column: either a value that parses as a
float (numbers, numeric strings — abstracted by their parsed rational),
or a value on which float parsing fails. -/
inductive Cell where
  | num : ℚ → Cell
  | nonnum : Cell
deriving DecidableEq, Repr

/-- Float parsing of one cell, as `astype(float)` applies it. -/
def parseFloat : Cell → Except String ℚ
  | Cell.num q => Except.ok q
  | Cell.nonnum => Except.error "could not convert value to float"

/-- Column-wise `astype(float)` (`src/app.py` lines 7-8): parses every
cell, raising (an `Except.error`) if any cell fails to parse. -/
def astypeFloat : List Cell → Except String (List ℚ)
  | [] => Except.ok []
  | c :: cs =>
    match parseFloat c, astypeFloat cs with
    | Except.ok q, Except.ok qs => Except.ok (q :: qs)
    | Except.error e, _ => Except.error e
    | _, Except.error e => Except.error e

/-- One row of the frame: the three raw columns plus the four columns the
engine may add. A derived column that has never been assigned is `none`. -/
structure Row where
  sector : String
  budget : Cell
  population : Cell
  budget_share : Option PF
  population_share : Option PF
  fairness_index : Option PF
  fairness_ratio : Option PF
deriving DecidableEq, Repr

/-- A fresh input row: raw columns only, derived columns absent. -/
def mkRow (s : String) (b p : Cell) : Row :=
  ⟨s, b, p, none, none, none, none⟩

/-- The frame: an ordered sequence of rows. -/
structure DF where
  rows : List Row
deriving DecidableEq, Repr

/-- The in-place assignment `df['budget'] = ...` restricted to one row. -/
def setBudgetCell (r : Row) (b : ℚ) : Row := { r with budget := Cell.num b }

/-- Share of a value in a total, as the source computes it:
`x / total * 100` (`src/app.py` lines 11-12). -/
def shareOf (x total : ℚ) : PF := ((PF.fin x).div (PF.fin total)).mul (PF.fin 100)

/-- The per-row effect of lines 11-27 of `src/app.py`: assign the two
share columns, then the method-selected `fairness_index` column (an
unrecognized method assigns nothing, leaving the column as it was), then
`fairness_ratio`. `bp` is the row's parsed (budget, population) pair. -/
def deriveRow (fairness_method : String) (total_budget total_population : ℚ)
    (r : Row) (bp : ℚ × ℚ) : Row :=
  let bs := shareOf bp.1 total_budget
  let ps := shareOf bp.2 total_population
  let fi : Option PF :=
    if fairness_method = "difference" then
      some (bs.sub ps)
    else if fairness_method = "proportional" then
      some ((((PF.fin 1).sub (((bs.sub ps).abs).div ps)).clip01).mul (PF.fin 100))
    else if fairness_method = "ratio" then
      some (((bs.div ps).sub (PF.fin 1)).mul (PF.fin 100))
    else r.fairness_index
  { r with budget := Cell.num bp.1, population := Cell.num bp.2,
           budget_share := some bs, population_share := some ps,
           fairness_index := fi, fairness_ratio := some (bs.div ps) }

/-- Result of a call: the final state of the frame object that was passed
in (which the caller also holds, the updates being in place), and the
exception raised, if any. -/
structure CMResult where
  frame : DF
  err : Option String
deriving DecidableEq, Repr

/-- Shallow embedding of `compute_metrics` (`src/app.py` lines 6-27).
The source's default for `fairness_method` is `"difference"`; here the
argument is always passed explicitly. Coercion of the two raw columns can
raise; every later step is elementwise float arithmetic and cannot. -/
def compute_metrics (df : DF) (fairness_method : String) : CMResult :=
  match astypeFloat (df.rows.map Row.budget) with
  | Except.error e => { frame := df, err := some e }
  | Except.ok budgets =>
    let rows1 := List.zipWith setBudgetCell df.rows budgets
    match astypeFloat (rows1.map Row.population) with
    | Except.error e => { frame := DF.mk rows1, err := some e }
    | Except.ok populations =>
      let total_budget := budgets.sum
      let total_population := populations.sum
      { frame := DF.mk (List.zipWith (deriveRow fairness_method total_budget total_population)
          rows1 (budgets.zip populations)),
        err := none }

/-! Helper lemmas about the embedding. -/

theorem astypeFloat_length : ∀ {cs : List Cell} {qs : List ℚ},
    astypeFloat cs = Except.ok qs → qs.length = cs.length := by
  intro cs
  induction cs with
  | nil =>
    intro qs h
    simp only [astypeFloat] at h
    cases h
    rfl
  | cons c cs ih =>
    intro qs h
    cases c with
    | num q =>
      cases hcs : astypeFloat cs with
      | ok qs2 =>
        simp only [astypeFloat, parseFloat, hcs] at h
        cases h
        simp [ih hcs]
      | error e =>
        simp [astypeFloat, parseFloat, hcs] at h
    | nonnum =>
      simp [astypeFloat, parseFloat] at h

theorem astypeFloat_map_num (qs : List ℚ) :
    astypeFloat (qs.map Cell.num) = Except.ok qs := by
  induction qs with
  | nil => rfl
  | cons q qs ih => simp [astypeFloat, parseFloat, ih]

theorem astypeFloat_error_of_mem : ∀ {cs : List Cell}, Cell.nonnum ∈ cs →
    ∃ e, astypeFloat cs = Except.error e := by
  intro cs
  induction cs with
  | nil => intro h; cases h
  | cons c cs ih =>
    intro h
    cases c with
    | num q =>
      have hmem : Cell.nonnum ∈ cs := by
        cases h with
        | tail _ h2 => exact h2
      obtain ⟨e, he⟩ := ih hmem
      exact ⟨e, by simp [astypeFloat, parseFloat, he]⟩
    | nonnum =>
      refine ⟨"could not convert value to float", ?_⟩
      cases hcs : astypeFloat cs <;> simp [astypeFloat, parseFloat, hcs]

theorem map_zipWith_right {α β γ δ : Type} (f : α → β → γ) (h : γ → δ) (g : β → δ)
    (hfg : ∀ a b, h (f a b) = g b) :
    ∀ (as : List α) (bs : List β), bs.length ≤ as.length →
      (List.zipWith f as bs).map h = bs.map g := by
  intro as
  induction as with
  | nil =>
    intro bs hlen
    cases bs with
    | nil => rfl
    | cons b bs => simp at hlen
  | cons a as ih =>
    intro bs hlen
    cases bs with
    | nil => rfl
    | cons b bs => simp [hfg, ih bs (by simpa using hlen)]

theorem map_zipWith_left {α β γ δ : Type} (f : α → β → γ) (h : γ → δ) (h2 : α → δ)
    (hfg : ∀ a b, h (f a b) = h2 a) :
    ∀ (as : List α) (bs : List β), as.length ≤ bs.length →
      (List.zipWith f as bs).map h = as.map h2 := by
  intro as
  induction as with
  | nil => intro bs _; rfl
  | cons a as ih =>
    intro bs hlen
    cases bs with
    | nil => simp at hlen
    | cons b bs => simp [hfg, ih bs (by simpa using hlen)]

theorem zip_map_fst {α : Type} {l1 l2 : List ℚ} (h : l1.length ≤ l2.length) (g : ℚ → α) :
    (l1.zip l2).map (fun bp => g bp.1) = l1.map g := by
  have h1 : (fun bp : ℚ × ℚ => g bp.1) = g ∘ Prod.fst := rfl
  rw [h1, ← List.map_map, List.map_fst_zip l1 l2 h]

theorem zip_map_snd {α : Type} {l1 l2 : List ℚ} (h : l2.length ≤ l1.length) (g : ℚ → α) :
    (l1.zip l2).map (fun bp => g bp.2) = l2.map g := by
  have h1 : (fun bp : ℚ × ℚ => g bp.2) = g ∘ Prod.snd := rfl
  rw [h1, ← List.map_map, List.map_snd_zip l1 l2 h]

theorem setBudgetCell_population (r : Row) (b : ℚ) :
    (setBudgetCell r b).population = r.population := rfl

theorem rows1_map_population (rs : List Row) (bl : List ℚ) (h : rs.length ≤ bl.length) :
    (List.zipWith setBudgetCell rs bl).map Row.population = rs.map Row.population :=
  map_zipWith_left setBudgetCell Row.population Row.population
    (fun _ _ => rfl) rs bl h

/-- Shape of a successful call: both coercions succeed, and the result is
the frame with the coerced raw columns and the derived columns, with no
exception. -/
theorem compute_metrics_ok {df : DF} {m : String} {bl pl : List ℚ}
    (hb : astypeFloat (df.rows.map Row.budget) = Except.ok bl)
    (hp : astypeFloat (df.rows.map Row.population) = Except.ok pl) :
    compute_metrics df m =
      { frame := DF.mk (List.zipWith (deriveRow m bl.sum pl.sum)
          (List.zipWith setBudgetCell df.rows bl) (bl.zip pl)),
        err := none } := by
  have hlb : bl.length = df.rows.length := by
    have := astypeFloat_length hb
    simpa using this
  have hr1 : (List.zipWith setBudgetCell df.rows bl).map Row.population
      = df.rows.map Row.population :=
    rows1_map_population df.rows bl (le_of_eq hlb.symm)
  simp only [compute_metrics, hb, hr1, hp]

theorem shareOf_eq {total : ℚ} (x : ℚ) (h : total ≠ 0) :
    shareOf x total = PF.fin (100 * x / total) := by
  simp only [shareOf, PF.div, PF.mul, if_neg h]
  congr 1
  ring

theorem shareOf_zero_total (x : ℚ) :
    shareOf x 0 = if x = 0 then PF.nan else if 0 < x then PF.inf else PF.ninf := by
  by_cases hx : x = 0
  · norm_num [shareOf, PF.div, PF.mul, hx]
  · by_cases hx2 : 0 < x <;> norm_num [shareOf, PF.div, PF.mul, hx, hx2]

theorem shareOf_zero_num {total : ℚ} (h : total ≠ 0) : shareOf 0 total = PF.fin 0 := by
  rw [shareOf_eq 0 h]
  norm_num

theorem div_fin_zero_not_finite (x : PF) : (x.div (PF.fin 0)).isFinite = false := by
  cases x with
  | fin a =>
    by_cases ha : a = 0
    · simp [PF.div, PF.isFinite, ha]
    · by_cases ha2 : 0 < a <;> simp [PF.div, PF.isFinite, ha, ha2]
  | nan => rfl
  | inf => simp [PF.div, PF.isFinite]
  | ninf => simp [PF.div, PF.isFinite]

theorem sum_map_mul_const (l : List ℚ) (c : ℚ) :
    (l.map fun x => c * x).sum = c * l.sum := by
  induction l with
  | nil => simp
  | cons x l ih => simp [ih]; ring

theorem sum_map_share (l : List ℚ) (h : l.sum ≠ 0) :
    (l.map fun x => 100 * x / l.sum).sum = 100 := by
  have h1 : (fun x : ℚ => 100 * x / l.sum) = (fun x : ℚ => (100 / l.sum) * x) := by
    funext x
    field_simp
  rw [h1, sum_map_mul_const]
  field_simp

theorem sum_zip_map_sub (f g : ℚ → ℚ) : ∀ (l1 l2 : List ℚ), l1.length = l2.length →
    ((l1.zip l2).map (fun bp => f bp.1 - g bp.2)).sum
      = (l1.map f).sum - (l2.map g).sum := by
  intro l1
  induction l1 with
  | nil =>
    intro l2 hlen
    cases l2 with
    | nil => simp
    | cons x l2 => simp at hlen
  | cons x l1 ih =>
    intro l2 hlen
    cases l2 with
    | nil => simp at hlen
    | cons y l2 =>
      simp only [List.zip_cons_cons, List.map_cons, List.sum_cons, ih l2 (by simpa using hlen)]
      ring

/-! Evaluation lemmas for the float operations. -/

theorem PF.sub_fin (a b : ℚ) : (PF.fin a).sub (PF.fin b) = PF.fin (a - b) := by
  show PF.fin (a + -b) = PF.fin (a - b)
  rw [← sub_eq_add_neg]

theorem PF.fin_sub_nan (a : ℚ) : (PF.fin a).sub PF.nan = PF.nan := rfl

theorem PF.fin_sub_inf (a : ℚ) : (PF.fin a).sub PF.inf = PF.ninf := rfl

theorem PF.mul_fin (a b : ℚ) : (PF.fin a).mul (PF.fin b) = PF.fin (a * b) := rfl

theorem PF.nan_mul_fin (b : ℚ) : PF.nan.mul (PF.fin b) = PF.nan := rfl

theorem PF.inf_mul_fin_pos {b : ℚ} (hb : 0 < b) : PF.inf.mul (PF.fin b) = PF.inf := by
  simp [PF.mul, ne_of_gt hb, hb]

theorem PF.ninf_mul_fin_pos {b : ℚ} (hb : 0 < b) : PF.ninf.mul (PF.fin b) = PF.ninf := by
  simp [PF.mul, ne_of_gt hb, hb]

theorem PF.div_fin {b : ℚ} (a : ℚ) (hb : b ≠ 0) :
    (PF.fin a).div (PF.fin b) = PF.fin (a / b) := by
  simp [PF.div, hb]

theorem PF.div_fin_zero (a : ℚ) : (PF.fin a).div (PF.fin 0)
    = if a = 0 then PF.nan else if 0 < a then PF.inf else PF.ninf := by
  simp [PF.div]

theorem PF.abs_fin (a : ℚ) : (PF.fin a).abs = PF.fin |a| := rfl

theorem PF.clip01_fin (a : ℚ) : (PF.fin a).clip01 = PF.fin (min (max a 0) 1) := rfl

/-! Per-field lemmas for `deriveRow`. -/

theorem deriveRow_sector (m : String) (tb tp : ℚ) (r : Row) (bp : ℚ × ℚ) :
    (deriveRow m tb tp r bp).sector = r.sector := rfl

theorem deriveRow_budget (m : String) (tb tp : ℚ) (r : Row) (bp : ℚ × ℚ) :
    (deriveRow m tb tp r bp).budget = Cell.num bp.1 := rfl

theorem deriveRow_population (m : String) (tb tp : ℚ) (r : Row) (bp : ℚ × ℚ) :
    (deriveRow m tb tp r bp).population = Cell.num bp.2 := rfl

theorem deriveRow_budget_share (m : String) (tb tp : ℚ) (r : Row) (bp : ℚ × ℚ) :
    (deriveRow m tb tp r bp).budget_share = some (shareOf bp.1 tb) := rfl

theorem deriveRow_population_share (m : String) (tb tp : ℚ) (r : Row) (bp : ℚ × ℚ) :
    (deriveRow m tb tp r bp).population_share = some (shareOf bp.2 tp) := rfl

theorem deriveRow_fairness_ratio (m : String) (tb tp : ℚ) (r : Row) (bp : ℚ × ℚ) :
    (deriveRow m tb tp r bp).fairness_ratio
      = some ((shareOf bp.1 tb).div (shareOf bp.2 tp)) := rfl

theorem deriveRow_fi_difference (tb tp : ℚ) (r : Row) (bp : ℚ × ℚ) :
    (deriveRow "difference" tb tp r bp).fairness_index
      = some ((shareOf bp.1 tb).sub (shareOf bp.2 tp)) := by
  simp [deriveRow]

theorem deriveRow_fi_proportional (tb tp : ℚ) (r : Row) (bp : ℚ × ℚ) :
    (deriveRow "proportional" tb tp r bp).fairness_index
      = some ((((PF.fin 1).sub
          ((((shareOf bp.1 tb).sub (shareOf bp.2 tp)).abs).div (shareOf bp.2 tp))).clip01).mul
          (PF.fin 100)) := by
  simp [deriveRow, String.reduceEq]

theorem deriveRow_fi_ratio (tb tp : ℚ) (r : Row) (bp : ℚ × ℚ) :
    (deriveRow "ratio" tb tp r bp).fairness_index
      = some ((((shareOf bp.1 tb).div (shareOf bp.2 tp)).sub (PF.fin 1)).mul (PF.fin 100)) := by
  simp [deriveRow, String.reduceEq]

theorem deriveRow_fi_other {m : String} (tb tp : ℚ) (r : Row) (bp : ℚ × ℚ)
    (hm1 : m ≠ "difference") (hm2 : m ≠ "proportional") (hm3 : m ≠ "ratio") :
    (deriveRow m tb tp r bp).fairness_index = r.fairness_index := by
  simp [deriveRow, hm1, hm2, hm3]

/-! Spec-side formulas for the amended claims, written from their words,
to be compared with what the code computes. -/

/-- Clamp into the unit interval, as pandas `clip(0.0, 1.0)` does on a
finite value. -/
def clampQ (q : ℚ) : ℚ := min (max q 0) 1

/-- Formula following the words of the amended claim C5: with the shares
written as `100*x/total`, a row with nonzero `population_share` gets the
clamped proportional index (a finite value in `[0, 100]`); a row with zero
`population_share` gets `0` when its `budget_share` is nonzero (clip of
`-Infinity`) and NaN when its `budget_share` is zero. -/
def proportionalIndexAmended (tb tp b p : ℚ) : PF :=
  if p = 0 then (if b = 0 then PF.nan else PF.fin 0)
  else PF.fin (clampQ (1 - |100 * b / tb - 100 * p / tp| / (100 * p / tp)) * 100)

/-- Formula following the words of the amended claim C7: a row with
nonzero `population_share` gets `(budget_share/population_share - 1)*100`;
a row with zero `population_share` gets NaN or a signed infinity by the
sign of its `budget_share`. -/
def ratioIndexAmended (tb tp b p : ℚ) : PF :=
  if p = 0 then
    (if 100 * b / tb = 0 then PF.nan
     else if 0 < 100 * b / tb then PF.inf else PF.ninf)
  else PF.fin ((100 * b / tb / (100 * p / tp) - 1) * 100)

theorem share_ne_zero {t : ℚ} (x : ℚ) (ht : t ≠ 0) (hx : x ≠ 0) : 100 * x / t ≠ 0 :=
  div_ne_zero (mul_ne_zero (by norm_num) hx) ht

theorem deriveRow_fi_proportional_eq {tb tp : ℚ} (htb : tb ≠ 0) (htp : tp ≠ 0)
    (r : Row) (b p : ℚ) :
    (deriveRow "proportional" tb tp r (b, p)).fairness_index
      = some (proportionalIndexAmended tb tp b p) := by
  rw [deriveRow_fi_proportional]
  have hbs : shareOf b tb = PF.fin (100 * b / tb) := shareOf_eq b htb
  have hps : shareOf p tp = PF.fin (100 * p / tp) := shareOf_eq p htp
  rw [hbs, hps]
  by_cases hp : p = 0
  · have hps0 : (100 : ℚ) * p / tp = 0 := by rw [hp]; norm_num
    rw [hps0]
    by_cases hb : b = 0
    · have hbs0 : (100 : ℚ) * b / tb = 0 := by rw [hb]; norm_num
      rw [hbs0]
      simp [proportionalIndexAmended, hp, hb, PF.sub_fin, PF.abs_fin, PF.div_fin_zero,
        PF.fin_sub_nan, PF.clip01, PF.mul]
    · have hbs1 : (100 : ℚ) * b / tb ≠ 0 := share_ne_zero b htb hb
      rw [PF.sub_fin, PF.abs_fin, PF.div_fin_zero]
      rw [if_neg (by simpa using hbs1), if_pos (by simpa using abs_pos.mpr hbs1)]
      simp [proportionalIndexAmended, hp, hb, PF.sub, PF.add, PF.neg, PF.clip01, PF.mul]
  · have hps1 : (100 : ℚ) * p / tp ≠ 0 := share_ne_zero p htp hp
    rw [PF.sub_fin, PF.abs_fin, PF.div_fin _ hps1, PF.sub_fin, PF.clip01_fin, PF.mul_fin]
    simp [proportionalIndexAmended, hp, clampQ]

theorem deriveRow_fi_ratio_eq {tb tp : ℚ} (htb : tb ≠ 0) (htp : tp ≠ 0)
    (r : Row) (b p : ℚ) :
    (deriveRow "ratio" tb tp r (b, p)).fairness_index
      = some (ratioIndexAmended tb tp b p) := by
  rw [deriveRow_fi_ratio]
  rw [show shareOf (b, p).1 tb = PF.fin (100 * b / tb) from shareOf_eq b htb,
      show shareOf (b, p).2 tp = PF.fin (100 * p / tp) from shareOf_eq p htp]
  by_cases hp : p = 0
  · have hps0 : (100 : ℚ) * p / tp = 0 := by rw [hp]; norm_num
    rw [hps0, PF.div_fin_zero]
    by_cases h1 : (100 : ℚ) * b / tb = 0
    · rw [if_pos h1]
      norm_num [ratioIndexAmended, hp, h1, PF.sub, PF.add, PF.neg, PF.mul]
    · by_cases h2 : 0 < (100 : ℚ) * b / tb
      · rw [if_neg h1, if_pos h2]
        norm_num [ratioIndexAmended, hp, h1, h2, PF.sub, PF.add, PF.neg, PF.mul]
      · rw [if_neg h1, if_neg h2]
        norm_num [ratioIndexAmended, hp, h1, h2, PF.sub, PF.add, PF.neg, PF.mul]
  · have hps1 : (100 : ℚ) * p / tp ≠ 0 := share_ne_zero p htp hp
    rw [PF.div_fin _ hps1, PF.sub_fin, PF.mul_fin]
    simp [ratioIndexAmended, hp]

/-! Machinery for idempotence. -/

theorem setBudgetCell_deriveRow (m : String) (tb tp : ℚ) (r : Row) (bp : ℚ × ℚ) :
    setBudgetCell (deriveRow m tb tp r bp) bp.1 = deriveRow m tb tp r bp := rfl

theorem zipWith_setBudget_cancel (m : String) (tb tp : ℚ) :
    ∀ (rs : List Row) (bl pl : List ℚ),
      List.zipWith setBudgetCell (List.zipWith (deriveRow m tb tp) rs (bl.zip pl)) bl
        = List.zipWith (deriveRow m tb tp) rs (bl.zip pl) := by
  intro rs
  induction rs with
  | nil => intro bl pl; simp
  | cons r rs ih =>
    intro bl pl
    cases bl with
    | nil => simp
    | cons b bl =>
      cases pl with
      | nil => simp
      | cons p pl =>
        simp only [List.zip_cons_cons, List.zipWith_cons_cons, ih]
        rw [setBudgetCell_deriveRow m tb tp r (b, p)]

theorem deriveRow_idem (m : String) (tb tp : ℚ) (r : Row) (bp : ℚ × ℚ) :
    deriveRow m tb tp (deriveRow m tb tp r bp) bp = deriveRow m tb tp r bp := by
  by_cases h1 : m = "difference"
  · simp [deriveRow, h1]
  · by_cases h2 : m = "proportional"
    · simp [deriveRow, h1, h2]
    · by_cases h3 : m = "ratio"
      · simp [deriveRow, h1, h2, h3]
      · simp [deriveRow, h1, h2, h3]

theorem zipWith_idem {α β : Type} (f : α → β → α)
    (hf : ∀ a b, f (f a b) b = f a b) :
    ∀ (as : List α) (bs : List β),
      List.zipWith f (List.zipWith f as bs) bs = List.zipWith f as bs := by
  intro as
  induction as with
  | nil => intro bs; simp
  | cons a as ih =>
    intro bs
    cases bs with
    | nil => simp
    | cons b bs => simp [hf, ih]

/-- A successful output of `compute_metrics` is a fixpoint: running the
engine again on its own output changes nothing at all. -/
theorem compute_metrics_fixpoint {df : DF} {m : String} {u : DF}
    (h : compute_metrics df m = { frame := u, err := none }) :
    compute_metrics u m = { frame := u, err := none } := by
  cases hb : astypeFloat (df.rows.map Row.budget) with
  | error e => simp [compute_metrics, hb] at h
  | ok bl =>
    have hlb : bl.length = df.rows.length := by simpa using astypeFloat_length hb
    cases hp : astypeFloat ((List.zipWith setBudgetCell df.rows bl).map Row.population) with
    | error e => simp [compute_metrics, hb, hp] at h
    | ok pl =>
      have hp' : astypeFloat (df.rows.map Row.population) = Except.ok pl := by
        rw [← rows1_map_population df.rows bl (le_of_eq hlb.symm)]
        exact hp
      have hlp : pl.length = df.rows.length := by
        have h1 := astypeFloat_length hp'
        simpa using h1
      have hok := compute_metrics_ok (m := m) hb hp'
      rw [hok] at h
      have hu : u = DF.mk (List.zipWith (deriveRow m bl.sum pl.sum)
          (List.zipWith setBudgetCell df.rows bl) (bl.zip pl)) := by
        have h2 := congrArg CMResult.frame h
        simpa using h2.symm
      have hlr1 : (List.zipWith setBudgetCell df.rows bl).length = df.rows.length := by
        simp [hlb]
      have hlzip : (bl.zip pl).length = df.rows.length := by
        simp [hlb, hlp]
      have hle1 : (bl.zip pl).length ≤ (List.zipWith setBudgetCell df.rows bl).length := by
        simp [hlb, hlp]
      have hub : u.rows.map Row.budget = bl.map Cell.num := by
        rw [hu]
        have h1 : (List.zipWith (deriveRow m bl.sum pl.sum)
              (List.zipWith setBudgetCell df.rows bl) (bl.zip pl)).map Row.budget
            = (bl.zip pl).map (fun bp => Cell.num bp.1) :=
          map_zipWith_right (deriveRow m bl.sum pl.sum) Row.budget
            (fun bp => Cell.num bp.1) (fun a bp => rfl) _ _ hle1
        rw [h1, zip_map_fst (by rw [hlb, hlp]) Cell.num]
      have hup : u.rows.map Row.population = pl.map Cell.num := by
        rw [hu]
        have h1 : (List.zipWith (deriveRow m bl.sum pl.sum)
              (List.zipWith setBudgetCell df.rows bl) (bl.zip pl)).map Row.population
            = (bl.zip pl).map (fun bp => Cell.num bp.2) :=
          map_zipWith_right (deriveRow m bl.sum pl.sum) Row.population
            (fun bp => Cell.num bp.2) (fun a bp => rfl) _ _ hle1
        rw [h1, zip_map_snd (by rw [hlb, hlp]) Cell.num]
      have hub2 : astypeFloat (u.rows.map Row.budget) = Except.ok bl := by
        rw [hub]; exact astypeFloat_map_num bl
      have hup2 : astypeFloat (u.rows.map Row.population) = Except.ok pl := by
        rw [hup]; exact astypeFloat_map_num pl
      rw [compute_metrics_ok (m := m) hub2 hup2]
      have hfin : List.zipWith (deriveRow m bl.sum pl.sum)
            (List.zipWith setBudgetCell u.rows bl) (bl.zip pl) = u.rows := by
        conv_lhs => rw [hu]
        rw [zipWith_setBudget_cancel m bl.sum pl.sum]
        rw [zipWith_idem _ (deriveRow_idem m bl.sum pl.sum)]
        rw [hu]
      rw [hfin]

/-- Membership in a zipWith image satisfies any property the generating
function guarantees pointwise. -/
theorem mem_zipWith_prop {α β γ : Type} {f : α → β → γ} {P : γ → Prop}
    (hpt : ∀ a b, P (f a b)) :
    ∀ {as : List α} {bs : List β} {x : γ}, x ∈ List.zipWith f as bs → P x := by
  intro as
  induction as with
  | nil => intro bs x hx; simp at hx
  | cons a as ih =>
    intro bs x hx
    cases bs with
    | nil => simp at hx
    | cons b bs =>
      rw [List.zipWith_cons_cons] at hx
      rcases List.mem_cons.mp hx with h | h
      · rw [h]; exact hpt a b
      · exact ih h

/-! Claims. -/

/-- Claim C1 is false of the code: on a table whose budget column sums to
0 there is no degenerate-totals guard; `budget_share` of the single row
comes out as NaN, not as the claimed 0. -/
theorem C1_counterexample :
    (compute_metrics (DF.mk [mkRow "A" (Cell.num 0) (Cell.num 5)]) "difference").frame.rows.map
        Row.budget_share = [some PF.nan] ∧ PF.nan ≠ PF.fin 0 := by
  constructor
  · simp only [compute_metrics, astypeFloat, parseFloat, setBudgetCell, deriveRow, shareOf,
      mkRow, String.reduceEq, if_true, if_false, List.zipWith, List.map, List.zip,
      List.zipWithAll, List.sum_cons, List.sum_nil]
    norm_num [PF.div, PF.mul, PF.add, PF.sub, PF.neg, PF.abs, PF.clip01]
  · simp

/-- Claim C1 (amended): `compute_metrics` has no degenerate-totals guard.
When the coerced budget column sums to 0 (and both raw columns parse), the
function still returns without raising, but every row's `budget_share` is
NaN (for a zero budget) or a signed infinity (for a nonzero budget) — it
is never set to 0. The population-total case is symmetric. -/
theorem C1_no_degenerate_guard (df : DF) (m : String) (bl pl : List ℚ)
    (hb : astypeFloat (df.rows.map Row.budget) = Except.ok bl)
    (hp : astypeFloat (df.rows.map Row.population) = Except.ok pl)
    (h0 : bl.sum = 0) :
    (compute_metrics df m).err = none ∧
    (compute_metrics df m).frame.rows.map Row.budget_share
      = bl.map (fun b => some (if b = 0 then PF.nan
          else if 0 < b then PF.inf else PF.ninf)) := by
  rw [compute_metrics_ok hb hp]
  refine ⟨rfl, ?_⟩
  have hlb : bl.length = df.rows.length := by simpa using astypeFloat_length hb
  have hlp : pl.length = df.rows.length := by simpa using astypeFloat_length hp
  have hle : (bl.zip pl).length ≤ (List.zipWith setBudgetCell df.rows bl).length := by
    simp [hlb, hlp]
  have h1 := map_zipWith_right (deriveRow m bl.sum pl.sum) Row.budget_share
    (fun bp => some (shareOf bp.1 bl.sum)) (fun a bp => rfl) _ _ hle
  simp only [DF.mk] at h1 ⊢
  rw [h1, zip_map_fst (by rw [hlb, hlp]) (fun b => some (shareOf b bl.sum)), h0]
  simp only [shareOf_zero_total]

/-- Witness of `C1_no_degenerate_guard` at a one-row table with budget 0. -/
theorem C1_no_degenerate_guard_witness :
    astypeFloat ((DF.mk [mkRow "A" (Cell.num 0) (Cell.num 5)]).rows.map Row.budget)
        = Except.ok [0] ∧
    astypeFloat ((DF.mk [mkRow "A" (Cell.num 0) (Cell.num 5)]).rows.map Row.population)
        = Except.ok [5] ∧
    ([(0 : ℚ)].sum = 0) ∧
    ((compute_metrics (DF.mk [mkRow "A" (Cell.num 0) (Cell.num 5)]) "difference").err = none ∧
     (compute_metrics (DF.mk [mkRow "A" (Cell.num 0) (Cell.num 5)]) "difference").frame.rows.map
         Row.budget_share
       = [(0 : ℚ)].map (fun b => some (if b = 0 then PF.nan
           else if 0 < b then PF.inf else PF.ninf))) :=
  ⟨rfl, rfl, by norm_num,
    C1_no_degenerate_guard _ "difference" [0] [5] rfl rfl (by norm_num)⟩

/-- Claim C2 is false of the code: with non-zero totals and a row whose
`population_share` is 0, `fairness_ratio` is not `budget_share / 1`; the
code divides by the zero `population_share` itself and the row gets
+Infinity (the claim predicts 50). -/
theorem C2_counterexample :
    (compute_metrics (DF.mk [mkRow "A" (Cell.num 1) (Cell.num 0),
        mkRow "B" (Cell.num 1) (Cell.num 1)]) "difference").frame.rows.map Row.fairness_ratio
      = [some PF.inf, some (PF.fin (1 / 2))] ∧ PF.inf ≠ PF.fin 50 := by
  constructor
  · simp only [compute_metrics, astypeFloat, parseFloat, setBudgetCell, deriveRow, shareOf,
      mkRow, String.reduceEq, if_true, if_false, List.zipWith, List.map, List.zip,
      List.zipWithAll, List.sum_cons, List.sum_nil]
    norm_num [PF.div, PF.mul, PF.add, PF.sub, PF.neg, PF.abs, PF.clip01]
  · simp

/-- Claim C2 (amended): there is no zero-guard on the divisor. With a
non-zero population total, every output row whose raw population is 0 has
`population_share` 0 and gets a non-finite `fairness_ratio` (NaN or a
signed infinity, by the sign of `budget_share`) from the division by zero;
no exception is raised. -/
theorem C2_no_zero_guard (df : DF) (m : String) (bl pl : List ℚ)
    (hb : astypeFloat (df.rows.map Row.budget) = Except.ok bl)
    (hp : astypeFloat (df.rows.map Row.population) = Except.ok pl)
    (htp : pl.sum ≠ 0) :
    (compute_metrics df m).err = none ∧
    ∀ r ∈ (compute_metrics df m).frame.rows, r.population = Cell.num 0 →
      ∃ v, r.fairness_ratio = some v ∧ v.isFinite = false := by
  rw [compute_metrics_ok hb hp]
  refine ⟨rfl, ?_⟩
  intro r hr
  refine mem_zipWith_prop (P := fun r => r.population = Cell.num 0 →
    ∃ v, r.fairness_ratio = some v ∧ v.isFinite = false) ?_ hr
  intro a bp h0
  have hp2 : bp.2 = 0 := by
    rw [deriveRow_population] at h0
    exact Cell.num.inj h0
  rw [deriveRow_fairness_ratio]
  refine ⟨_, rfl, ?_⟩
  rw [hp2, shareOf_zero_num htp]
  exact div_fin_zero_not_finite _

/-- Witness of `C2_no_zero_guard`: two rows, the first with population 0. -/
theorem C2_no_zero_guard_witness :
    astypeFloat ((DF.mk [mkRow "A" (Cell.num 1) (Cell.num 0),
        mkRow "B" (Cell.num 1) (Cell.num 1)]).rows.map Row.budget) = Except.ok [1, 1] ∧
    astypeFloat ((DF.mk [mkRow "A" (Cell.num 1) (Cell.num 0),
        mkRow "B" (Cell.num 1) (Cell.num 1)]).rows.map Row.population) = Except.ok [0, 1] ∧
    ([(0 : ℚ), 1].sum ≠ 0) ∧
    ((compute_metrics (DF.mk [mkRow "A" (Cell.num 1) (Cell.num 0),
        mkRow "B" (Cell.num 1) (Cell.num 1)]) "difference").err = none ∧
     ∀ r ∈ (compute_metrics (DF.mk [mkRow "A" (Cell.num 1) (Cell.num 0),
        mkRow "B" (Cell.num 1) (Cell.num 1)]) "difference").frame.rows,
        r.population = Cell.num 0 →
          ∃ v, r.fairness_ratio = some v ∧ v.isFinite = false) :=
  ⟨rfl, rfl, by norm_num,
    C2_no_zero_guard _ "difference" [1, 1] [0, 1] rfl rfl (by norm_num)⟩

/-- Claim C3 is false of the code: a non-numeric budget cell is not
coerced to 0; `astype(float)` raises and `compute_metrics` fails. -/
theorem C3_counterexample :
    (compute_metrics (DF.mk [mkRow "A" Cell.nonnum (Cell.num 1)]) "difference").err ≠ none := by
  simp [compute_metrics, astypeFloat, parseFloat, mkRow]

/-- Claim C3 (amended): malformed numeric input is not coerced to 0.
Whenever any budget or population cell fails float parsing,
`compute_metrics` raises (its result carries an error), instead of
treating the value as 0 and proceeding. -/
theorem C3_raises_on_nonnum (df : DF) (m : String)
    (h : Cell.nonnum ∈ df.rows.map Row.budget ∨ Cell.nonnum ∈ df.rows.map Row.population) :
    (compute_metrics df m).err ≠ none := by
  cases hb : astypeFloat (df.rows.map Row.budget) with
  | error e => simp [compute_metrics, hb]
  | ok bl =>
    rcases h with h | h
    · obtain ⟨e, he⟩ := astypeFloat_error_of_mem h
      rw [hb] at he
      simp at he
    · obtain ⟨e, he⟩ := astypeFloat_error_of_mem h
      have hlb : bl.length = df.rows.length := by simpa using astypeFloat_length hb
      have hr1 : (List.zipWith setBudgetCell df.rows bl).map Row.population
          = df.rows.map Row.population := rows1_map_population _ _ (le_of_eq hlb.symm)
      simp [compute_metrics, hb, hr1, he]

/-- Witness of `C3_raises_on_nonnum` at a table with a non-numeric budget
cell. -/
theorem C3_raises_on_nonnum_witness :
    (Cell.nonnum ∈ (DF.mk [mkRow "A" Cell.nonnum (Cell.num 1)]).rows.map Row.budget ∨
     Cell.nonnum ∈ (DF.mk [mkRow "A" Cell.nonnum (Cell.num 1)]).rows.map Row.population) ∧
    (compute_metrics (DF.mk [mkRow "A" Cell.nonnum (Cell.num 1)]) "proportional").err ≠ none :=
  ⟨Or.inl (by simp [mkRow]),
    C3_raises_on_nonnum _ "proportional" (Or.inl (by simp [mkRow]))⟩

/-- Claim C4 is false of the code: the frame the caller passed in does
not stay unchanged — after the call it differs from the original (the
derived columns have been assigned on it in place). -/
theorem C4_counterexample :
    (compute_metrics (DF.mk [mkRow "A" (Cell.num 1) (Cell.num 1)]) "difference").frame
      ≠ DF.mk [mkRow "A" (Cell.num 1) (Cell.num 1)] := by
  have h1 : (compute_metrics (DF.mk [mkRow "A" (Cell.num 1) (Cell.num 1)])
        "difference").frame
      = DF.mk [Row.mk "A" (Cell.num 1) (Cell.num 1) (some (PF.fin 100)) (some (PF.fin 100))
          (some (PF.fin 0)) (some (PF.fin 1))] := by
    simp only [compute_metrics, astypeFloat, parseFloat, setBudgetCell, deriveRow, shareOf,
      mkRow, String.reduceEq, if_true, if_false, List.zipWith, List.map, List.zip,
      List.zipWithAll, List.sum_cons, List.sum_nil]
    norm_num [PF.div, PF.mul, PF.add, PF.sub, PF.neg, PF.abs, PF.clip01]
  rw [h1]
  simp [mkRow]

/-- Claim C4 (amended): `compute_metrics` is not pure — it assigns its
columns on the frame in place, so after a successful call the caller's
table is the augmented table, not the original: same sectors in the same
order, but with the coerced raw columns and the derived share and ratio
columns populated. -/
theorem C4_mutates_in_place (df : DF) (m : String) (bl pl : List ℚ)
    (hb : astypeFloat (df.rows.map Row.budget) = Except.ok bl)
    (hp : astypeFloat (df.rows.map Row.population) = Except.ok pl) :
    (compute_metrics df m).err = none ∧
    (compute_metrics df m).frame.rows.map Row.sector = df.rows.map Row.sector ∧
    (compute_metrics df m).frame.rows.map Row.budget_share
      = (bl.zip pl).map (fun bp => some (shareOf bp.1 bl.sum)) ∧
    (compute_metrics df m).frame.rows.map Row.population_share
      = (bl.zip pl).map (fun bp => some (shareOf bp.2 pl.sum)) ∧
    (compute_metrics df m).frame.rows.map Row.fairness_ratio
      = (bl.zip pl).map (fun bp => some ((shareOf bp.1 bl.sum).div (shareOf bp.2 pl.sum))) := by
  rw [compute_metrics_ok hb hp]
  have hlb : bl.length = df.rows.length := by simpa using astypeFloat_length hb
  have hlp : pl.length = df.rows.length := by simpa using astypeFloat_length hp
  have hle : (bl.zip pl).length ≤ (List.zipWith setBudgetCell df.rows bl).length := by
    simp [hlb, hlp]
  have hle2 : (List.zipWith setBudgetCell df.rows bl).length ≤ (bl.zip pl).length := by
    simp [hlb, hlp]
  have hle3 : df.rows.length ≤ bl.length := le_of_eq hlb.symm
  refine ⟨rfl, ?_, ?_, ?_, ?_⟩
  · have h1 := map_zipWith_left (deriveRow m bl.sum pl.sum) Row.sector Row.sector
      (fun a bp => rfl) _ _ hle2
    have h2 := map_zipWith_left setBudgetCell Row.sector Row.sector
      (fun a b => rfl) df.rows bl hle3
    simpa using h1.trans h2
  · exact map_zipWith_right (deriveRow m bl.sum pl.sum) Row.budget_share
      (fun bp => some (shareOf bp.1 bl.sum)) (fun a bp => rfl) _ _ hle
  · exact map_zipWith_right (deriveRow m bl.sum pl.sum) Row.population_share
      (fun bp => some (shareOf bp.2 pl.sum)) (fun a bp => rfl) _ _ hle
  · exact map_zipWith_right (deriveRow m bl.sum pl.sum) Row.fairness_ratio
      (fun bp => some ((shareOf bp.1 bl.sum).div (shareOf bp.2 pl.sum)))
      (fun a bp => rfl) _ _ hle

/-- Witness of `C4_mutates_in_place` at a one-row table. -/
theorem C4_mutates_in_place_witness :
    astypeFloat ((DF.mk [mkRow "A" (Cell.num 1) (Cell.num 1)]).rows.map Row.budget)
        = Except.ok [1] ∧
    astypeFloat ((DF.mk [mkRow "A" (Cell.num 1) (Cell.num 1)]).rows.map Row.population)
        = Except.ok [1] ∧
    ((compute_metrics (DF.mk [mkRow "A" (Cell.num 1) (Cell.num 1)]) "difference").err = none ∧
     (compute_metrics (DF.mk [mkRow "A" (Cell.num 1) (Cell.num 1)]) "difference").frame.rows.map
         Row.sector = (DF.mk [mkRow "A" (Cell.num 1) (Cell.num 1)]).rows.map Row.sector ∧
     (compute_metrics (DF.mk [mkRow "A" (Cell.num 1) (Cell.num 1)]) "difference").frame.rows.map
         Row.budget_share
       = (([(1 : ℚ)]).zip [(1 : ℚ)]).map (fun bp => some (shareOf bp.1 ([(1 : ℚ)]).sum)) ∧
     (compute_metrics (DF.mk [mkRow "A" (Cell.num 1) (Cell.num 1)]) "difference").frame.rows.map
         Row.population_share
       = (([(1 : ℚ)]).zip [(1 : ℚ)]).map (fun bp => some (shareOf bp.2 ([(1 : ℚ)]).sum)) ∧
     (compute_metrics (DF.mk [mkRow "A" (Cell.num 1) (Cell.num 1)]) "difference").frame.rows.map
         Row.fairness_ratio
       = (([(1 : ℚ)]).zip [(1 : ℚ)]).map
           (fun bp => some ((shareOf bp.1 ([(1 : ℚ)]).sum).div (shareOf bp.2 ([(1 : ℚ)]).sum)))) :=
  ⟨rfl, rfl, C4_mutates_in_place _ "difference" [1] [1] rfl rfl⟩

/-- Claim C6 holds: with non-zero totals (and parseable columns) the
shares are `100 * value / total` for every row, and each share column sums
to exactly 100 (the model computes with exact rationals). -/
theorem C6_shares (df : DF) (m : String) (bl pl : List ℚ)
    (hb : astypeFloat (df.rows.map Row.budget) = Except.ok bl)
    (hp : astypeFloat (df.rows.map Row.population) = Except.ok pl)
    (htb : bl.sum ≠ 0) (htp : pl.sum ≠ 0) :
    (compute_metrics df m).err = none ∧
    (compute_metrics df m).frame.rows.map Row.budget_share
      = bl.map (fun b => some (PF.fin (100 * b / bl.sum))) ∧
    (compute_metrics df m).frame.rows.map Row.population_share
      = pl.map (fun p => some (PF.fin (100 * p / pl.sum))) ∧
    (bl.map fun b => 100 * b / bl.sum).sum = 100 ∧
    (pl.map fun p => 100 * p / pl.sum).sum = 100 := by
  rw [compute_metrics_ok hb hp]
  have hlb : bl.length = df.rows.length := by simpa using astypeFloat_length hb
  have hlp : pl.length = df.rows.length := by simpa using astypeFloat_length hp
  have hle : (bl.zip pl).length ≤ (List.zipWith setBudgetCell df.rows bl).length := by
    simp [hlb, hlp]
  refine ⟨rfl, ?_, ?_, sum_map_share bl htb, sum_map_share pl htp⟩
  · have h1 := map_zipWith_right (deriveRow m bl.sum pl.sum) Row.budget_share
      (fun bp => some (PF.fin (100 * bp.1 / bl.sum)))
      (fun a bp => by rw [deriveRow_budget_share, shareOf_eq _ htb]) _ _ hle
    simp only [DF.mk] at h1 ⊢
    rw [h1, zip_map_fst (by rw [hlb, hlp]) (fun b => some (PF.fin (100 * b / bl.sum)))]
  · have h1 := map_zipWith_right (deriveRow m bl.sum pl.sum) Row.population_share
      (fun bp => some (PF.fin (100 * bp.2 / pl.sum)))
      (fun a bp => by rw [deriveRow_population_share, shareOf_eq _ htp]) _ _ hle
    simp only [DF.mk] at h1 ⊢
    rw [h1, zip_map_snd (by rw [hlb, hlp]) (fun p => some (PF.fin (100 * p / pl.sum)))]

/-- Witness of `C6_shares` at the spec's two-row example table. -/
theorem C6_shares_witness :
    astypeFloat ((DF.mk [mkRow "Health" (Cell.num 500) (Cell.num 1000),
        mkRow "Education" (Cell.num 500) (Cell.num 1000)]).rows.map Row.budget)
      = Except.ok [500, 500] ∧
    astypeFloat ((DF.mk [mkRow "Health" (Cell.num 500) (Cell.num 1000),
        mkRow "Education" (Cell.num 500) (Cell.num 1000)]).rows.map Row.population)
      = Except.ok [1000, 1000] ∧
    ([(500 : ℚ), 500].sum ≠ 0) ∧ ([(1000 : ℚ), 1000].sum ≠ 0) ∧
    ((compute_metrics (DF.mk [mkRow "Health" (Cell.num 500) (Cell.num 1000),
        mkRow "Education" (Cell.num 500) (Cell.num 1000)]) "difference").err = none ∧
     (compute_metrics (DF.mk [mkRow "Health" (Cell.num 500) (Cell.num 1000),
        mkRow "Education" (Cell.num 500) (Cell.num 1000)]) "difference").frame.rows.map
         Row.budget_share
       = [(500 : ℚ), 500].map (fun b => some (PF.fin (100 * b / [(500 : ℚ), 500].sum))) ∧
     (compute_metrics (DF.mk [mkRow "Health" (Cell.num 500) (Cell.num 1000),
        mkRow "Education" (Cell.num 500) (Cell.num 1000)]) "difference").frame.rows.map
         Row.population_share
       = [(1000 : ℚ), 1000].map (fun p => some (PF.fin (100 * p / [(1000 : ℚ), 1000].sum))) ∧
     ([(500 : ℚ), 500].map fun b => 100 * b / [(500 : ℚ), 500].sum).sum = 100 ∧
     ([(1000 : ℚ), 1000].map fun p => 100 * p / [(1000 : ℚ), 1000].sum).sum = 100) :=
  ⟨rfl, rfl, by norm_num, by norm_num,
    C6_shares _ "difference" [500, 500] [1000, 1000] rfl rfl (by norm_num) (by norm_num)⟩

/-- Claim C5 is false of the code: there is no zero-guard in the
proportional method. On a row with `population_share = 0` and
`budget_share = 1/2` the claimed guarded formula gives
`clamp(1 - 0.5/1, 0, 1) * 100 = 50`, but the code divides by the zero
`population_share` and clips the resulting -Infinity to 0. -/
theorem C5_counterexample :
    (compute_metrics (DF.mk [mkRow "A" (Cell.num 1) (Cell.num 0),
        mkRow "B" (Cell.num 199) (Cell.num 1)]) "proportional").frame.rows.map
        Row.fairness_index
      = [some (PF.fin 0), some (PF.fin (199 / 2))] ∧ PF.fin 0 ≠ PF.fin 50 := by
  constructor
  · simp only [compute_metrics, astypeFloat, parseFloat, setBudgetCell, deriveRow, shareOf,
      mkRow, String.reduceEq, if_true, if_false, List.zipWith, List.map, List.zip,
      List.zipWithAll, List.sum_cons, List.sum_nil]
    norm_num [PF.div, PF.mul, PF.add, PF.sub, PF.neg, PF.abs, PF.clip01, abs_of_pos,
      max_def, min_def]
  · simp

/-- Claim C5 (amended): the proportional method has no zero-guard. With
non-zero totals (columns parseable, populations nonnegative), every row
gets `clamp(1 - |budget_share - population_share| / population_share, 0,
1) * 100` — the divisor is `population_share` itself; rows with
`population_share = 0` get 0 (clip of -Infinity) when their
`budget_share` is nonzero and NaN when it is zero. For every row with
nonzero `population_share` the value is finite and lies in `[0, 100]`. -/
theorem C5_proportional_no_guard (df : DF) (bl pl : List ℚ)
    (hb : astypeFloat (df.rows.map Row.budget) = Except.ok bl)
    (hp : astypeFloat (df.rows.map Row.population) = Except.ok pl)
    (htb : bl.sum ≠ 0) (htp : pl.sum ≠ 0) (_hpos : ∀ p ∈ pl, 0 ≤ p) :
    (compute_metrics df "proportional").frame.rows.map Row.fairness_index
      = (bl.zip pl).map (fun bp => some (proportionalIndexAmended bl.sum pl.sum bp.1 bp.2)) ∧
    ∀ b p : ℚ, p ≠ 0 → ∃ q, proportionalIndexAmended bl.sum pl.sum b p = PF.fin q ∧
      0 ≤ q ∧ q ≤ 100 := by
  constructor
  · rw [compute_metrics_ok hb hp]
    have hlb : bl.length = df.rows.length := by simpa using astypeFloat_length hb
    have hlp : pl.length = df.rows.length := by simpa using astypeFloat_length hp
    have hle : (bl.zip pl).length ≤ (List.zipWith setBudgetCell df.rows bl).length := by
      simp [hlb, hlp]
    exact map_zipWith_right (deriveRow "proportional" bl.sum pl.sum) Row.fairness_index
      (fun bp => some (proportionalIndexAmended bl.sum pl.sum bp.1 bp.2))
      (fun a bp => deriveRow_fi_proportional_eq htb htp a bp.1 bp.2) _ _ hle
  · intro b p hp2
    refine ⟨clampQ (1 - |100 * b / bl.sum - 100 * p / pl.sum| / (100 * p / pl.sum)) * 100,
      by simp [proportionalIndexAmended, hp2], ?_, ?_⟩
    · have h0 : 0 ≤ clampQ (1 - |100 * b / bl.sum - 100 * p / pl.sum|
          / (100 * p / pl.sum)) := le_min (le_max_right _ _) zero_le_one
      exact mul_nonneg h0 (by norm_num)
    · have h1 : clampQ (1 - |100 * b / bl.sum - 100 * p / pl.sum|
          / (100 * p / pl.sum)) ≤ 1 := min_le_right _ _
      calc clampQ (1 - |100 * b / bl.sum - 100 * p / pl.sum| / (100 * p / pl.sum)) * 100
          ≤ 1 * 100 := mul_le_mul_of_nonneg_right h1 (by norm_num)
        _ = 100 := by norm_num

/-- Witness of `C5_proportional_no_guard` at the counterexample table. -/
theorem C5_proportional_no_guard_witness :
    astypeFloat ((DF.mk [mkRow "A" (Cell.num 1) (Cell.num 0),
        mkRow "B" (Cell.num 199) (Cell.num 1)]).rows.map Row.budget)
      = Except.ok [1, 199] ∧
    astypeFloat ((DF.mk [mkRow "A" (Cell.num 1) (Cell.num 0),
        mkRow "B" (Cell.num 199) (Cell.num 1)]).rows.map Row.population)
      = Except.ok [0, 1] ∧
    ([(1 : ℚ), 199].sum ≠ 0) ∧ ([(0 : ℚ), 1].sum ≠ 0) ∧ (∀ p ∈ [(0 : ℚ), 1], 0 ≤ p) ∧
    ((compute_metrics (DF.mk [mkRow "A" (Cell.num 1) (Cell.num 0),
        mkRow "B" (Cell.num 199) (Cell.num 1)]) "proportional").frame.rows.map
        Row.fairness_index
      = (([(1 : ℚ), 199]).zip [(0 : ℚ), 1]).map
          (fun bp => some (proportionalIndexAmended ([(1 : ℚ), 199]).sum
            ([(0 : ℚ), 1]).sum bp.1 bp.2)) ∧
     ∀ b p : ℚ, p ≠ 0 → ∃ q, proportionalIndexAmended ([(1 : ℚ), 199]).sum
        ([(0 : ℚ), 1]).sum b p = PF.fin q ∧ 0 ≤ q ∧ q ≤ 100) :=
  ⟨rfl, rfl, by norm_num, by norm_num, by norm_num [List.forall_mem_cons],
    C5_proportional_no_guard _ [1, 199] [0, 1] rfl rfl (by norm_num) (by norm_num)
      (by norm_num [List.forall_mem_cons])⟩

/-- Claim C7 is false of the code: the ratio method has no zero-guard.
On a row with `population_share = 0` and `budget_share = 50` the claimed
guarded formula gives `(50/1 - 1) * 100 = 4900`, but the code divides by
the zero `population_share` and the row gets +Infinity. -/
theorem C7_counterexample :
    (compute_metrics (DF.mk [mkRow "A" (Cell.num 1) (Cell.num 0),
        mkRow "B" (Cell.num 1) (Cell.num 1)]) "ratio").frame.rows.map Row.fairness_index
      = [some PF.inf, some (PF.fin (-50))] ∧ PF.inf ≠ PF.fin 4900 := by
  constructor
  · simp only [compute_metrics, astypeFloat, parseFloat, setBudgetCell, deriveRow, shareOf,
      mkRow, String.reduceEq, if_true, if_false, List.zipWith, List.map, List.zip,
      List.zipWithAll, List.sum_cons, List.sum_nil]
    norm_num [PF.div, PF.mul, PF.add, PF.sub, PF.neg, PF.abs, PF.clip01]
  · simp

/-- Claim C7 (amended): the ratio method divides by `population_share`
itself, with no zero-guard: every row gets
`(budget_share / population_share - 1) * 100`, which is NaN or a signed
infinity on rows with `population_share = 0`; on rows with nonzero
`population_share` the value is 0 exactly when `budget_share` equals
`population_share`. -/
theorem C7_ratio_no_guard (df : DF) (bl pl : List ℚ)
    (hb : astypeFloat (df.rows.map Row.budget) = Except.ok bl)
    (hp : astypeFloat (df.rows.map Row.population) = Except.ok pl)
    (htb : bl.sum ≠ 0) (htp : pl.sum ≠ 0) :
    (compute_metrics df "ratio").frame.rows.map Row.fairness_index
      = (bl.zip pl).map (fun bp => some (ratioIndexAmended bl.sum pl.sum bp.1 bp.2)) ∧
    (∀ b p : ℚ, p ≠ 0 →
      (ratioIndexAmended bl.sum pl.sum b p = PF.fin 0 ↔
        100 * b / bl.sum = 100 * p / pl.sum)) ∧
    ∀ b p : ℚ, p = 0 → (ratioIndexAmended bl.sum pl.sum b p).isFinite = false := by
  refine ⟨?_, ?_, ?_⟩
  · rw [compute_metrics_ok hb hp]
    have hlb : bl.length = df.rows.length := by simpa using astypeFloat_length hb
    have hlp : pl.length = df.rows.length := by simpa using astypeFloat_length hp
    have hle : (bl.zip pl).length ≤ (List.zipWith setBudgetCell df.rows bl).length := by
      simp [hlb, hlp]
    exact map_zipWith_right (deriveRow "ratio" bl.sum pl.sum) Row.fairness_index
      (fun bp => some (ratioIndexAmended bl.sum pl.sum bp.1 bp.2))
      (fun a bp => deriveRow_fi_ratio_eq htb htp a bp.1 bp.2) _ _ hle
  · intro b p hp2
    have hy : (100 : ℚ) * p / pl.sum ≠ 0 := share_ne_zero p htp hp2
    simp only [ratioIndexAmended, if_neg hp2, PF.fin.injEq]
    rw [mul_eq_zero]
    constructor
    · intro h
      rcases h with h | h
      · rw [sub_eq_zero] at h
        field_simp at h
        field_simp
        linarith
      · norm_num at h
    · intro h
      left
      rw [sub_eq_zero, h, div_self hy]
  · intro b p hp0
    by_cases h1 : (100 : ℚ) * b / bl.sum = 0
    · simp [ratioIndexAmended, hp0, h1, PF.isFinite]
    · by_cases h2 : 0 < (100 : ℚ) * b / bl.sum
      · simp [ratioIndexAmended, hp0, h1, h2, PF.isFinite]
      · simp [ratioIndexAmended, hp0, h1, h2, PF.isFinite]

/-- Witness of `C7_ratio_no_guard` at the spec's 80/20 example table. -/
theorem C7_ratio_no_guard_witness :
    astypeFloat ((DF.mk [mkRow "A" (Cell.num 80) (Cell.num 20),
        mkRow "B" (Cell.num 20) (Cell.num 80)]).rows.map Row.budget)
      = Except.ok [80, 20] ∧
    astypeFloat ((DF.mk [mkRow "A" (Cell.num 80) (Cell.num 20),
        mkRow "B" (Cell.num 20) (Cell.num 80)]).rows.map Row.population)
      = Except.ok [20, 80] ∧
    ([(80 : ℚ), 20].sum ≠ 0) ∧ ([(20 : ℚ), 80].sum ≠ 0) ∧
    ((compute_metrics (DF.mk [mkRow "A" (Cell.num 80) (Cell.num 20),
        mkRow "B" (Cell.num 20) (Cell.num 80)]) "ratio").frame.rows.map Row.fairness_index
      = (([(80 : ℚ), 20]).zip [(20 : ℚ), 80]).map
          (fun bp => some (ratioIndexAmended ([(80 : ℚ), 20]).sum
            ([(20 : ℚ), 80]).sum bp.1 bp.2)) ∧
     (∀ b p : ℚ, p ≠ 0 →
       (ratioIndexAmended ([(80 : ℚ), 20]).sum ([(20 : ℚ), 80]).sum b p = PF.fin 0 ↔
         100 * b / ([(80 : ℚ), 20]).sum = 100 * p / ([(20 : ℚ), 80]).sum)) ∧
     ∀ b p : ℚ, p = 0 →
       (ratioIndexAmended ([(80 : ℚ), 20]).sum ([(20 : ℚ), 80]).sum b p).isFinite = false) :=
  ⟨rfl, rfl, by norm_num, by norm_num,
    C7_ratio_no_guard _ [80, 20] [20, 80] rfl rfl (by norm_num) (by norm_num)⟩

/-- Claim C8 is false of the code: an unrecognized method leaves
`fairness_index` unset, but `fairness_ratio` is computed unconditionally
(line 26 of `src/app.py` runs for every method), so it is not left unset. -/
theorem C8_counterexample :
    (compute_metrics (DF.mk [mkRow "A" (Cell.num 1) (Cell.num 1)]) "bogus").frame.rows.map
        Row.fairness_ratio = [some (PF.fin 1)] ∧
    some (PF.fin 1) ≠ (none : Option PF) := by
  constructor
  · simp only [compute_metrics, astypeFloat, parseFloat, setBudgetCell, deriveRow, shareOf,
      mkRow, String.reduceEq, if_true, if_false, List.zipWith, List.map, List.zip,
      List.zipWithAll, List.sum_cons, List.sum_nil]
    norm_num [PF.div, PF.mul, PF.add, PF.sub, PF.neg, PF.abs, PF.clip01]
  · simp

/-- Claim C8 (amended): a method outside
{difference, proportional, ratio} raises no error and leaves the
`fairness_index` column exactly as it was in the input, but
`fairness_ratio` is still computed for every row. -/
theorem C8_unknown_method (df : DF) (m : String) (bl pl : List ℚ)
    (hb : astypeFloat (df.rows.map Row.budget) = Except.ok bl)
    (hp : astypeFloat (df.rows.map Row.population) = Except.ok pl)
    (hm1 : m ≠ "difference") (hm2 : m ≠ "proportional") (hm3 : m ≠ "ratio") :
    (compute_metrics df m).err = none ∧
    (compute_metrics df m).frame.rows.map Row.fairness_index
      = df.rows.map Row.fairness_index ∧
    (compute_metrics df m).frame.rows.map Row.fairness_ratio
      = (bl.zip pl).map (fun bp => some ((shareOf bp.1 bl.sum).div (shareOf bp.2 pl.sum))) := by
  rw [compute_metrics_ok hb hp]
  have hlb : bl.length = df.rows.length := by simpa using astypeFloat_length hb
  have hlp : pl.length = df.rows.length := by simpa using astypeFloat_length hp
  have hle : (bl.zip pl).length ≤ (List.zipWith setBudgetCell df.rows bl).length := by
    simp [hlb, hlp]
  have hle2 : (List.zipWith setBudgetCell df.rows bl).length ≤ (bl.zip pl).length := by
    simp [hlb, hlp]
  have hle3 : df.rows.length ≤ bl.length := le_of_eq hlb.symm
  refine ⟨rfl, ?_, ?_⟩
  · have h1 := map_zipWith_left (deriveRow m bl.sum pl.sum) Row.fairness_index
      Row.fairness_index (fun a bp => deriveRow_fi_other _ _ a bp hm1 hm2 hm3) _ _ hle2
    have h2 := map_zipWith_left setBudgetCell Row.fairness_index Row.fairness_index
      (fun a b => rfl) df.rows bl hle3
    simpa using h1.trans h2
  · exact map_zipWith_right (deriveRow m bl.sum pl.sum) Row.fairness_ratio
      (fun bp => some ((shareOf bp.1 bl.sum).div (shareOf bp.2 pl.sum)))
      (fun a bp => rfl) _ _ hle

/-- Witness of `C8_unknown_method` with the method string `"bogus"`. -/
theorem C8_unknown_method_witness :
    astypeFloat ((DF.mk [mkRow "A" (Cell.num 1) (Cell.num 1)]).rows.map Row.budget)
        = Except.ok [1] ∧
    astypeFloat ((DF.mk [mkRow "A" (Cell.num 1) (Cell.num 1)]).rows.map Row.population)
        = Except.ok [1] ∧
    ("bogus" ≠ "difference") ∧ ("bogus" ≠ "proportional") ∧ ("bogus" ≠ "ratio") ∧
    ((compute_metrics (DF.mk [mkRow "A" (Cell.num 1) (Cell.num 1)]) "bogus").err = none ∧
     (compute_metrics (DF.mk [mkRow "A" (Cell.num 1) (Cell.num 1)]) "bogus").frame.rows.map
         Row.fairness_index
       = (DF.mk [mkRow "A" (Cell.num 1) (Cell.num 1)]).rows.map Row.fairness_index ∧
     (compute_metrics (DF.mk [mkRow "A" (Cell.num 1) (Cell.num 1)]) "bogus").frame.rows.map
         Row.fairness_ratio
       = (([(1 : ℚ)]).zip [(1 : ℚ)]).map
           (fun bp => some ((shareOf bp.1 ([(1 : ℚ)]).sum).div
             (shareOf bp.2 ([(1 : ℚ)]).sum)))) :=
  ⟨rfl, rfl, by decide, by decide, by decide,
    C8_unknown_method _ "bogus" [1] [1] rfl rfl (by decide) (by decide) (by decide)⟩

/-- Claim C9 holds: re-running `compute_metrics` on its own successful
output (whose raw budget and population columns it does not change) gives
identical derived columns — indeed the output is a fixpoint. -/
theorem C9_idempotent (df : DF) (m : String) (u : DF)
    (h : compute_metrics df m = { frame := u, err := none }) :
    (compute_metrics u m).err = none ∧
    (compute_metrics u m).frame.rows.map Row.budget_share = u.rows.map Row.budget_share ∧
    (compute_metrics u m).frame.rows.map Row.population_share
      = u.rows.map Row.population_share ∧
    (compute_metrics u m).frame.rows.map Row.fairness_index
      = u.rows.map Row.fairness_index ∧
    (compute_metrics u m).frame.rows.map Row.fairness_ratio
      = u.rows.map Row.fairness_ratio := by
  rw [compute_metrics_fixpoint h]
  exact ⟨rfl, rfl, rfl, rfl, rfl⟩

/-- Witness of `C9_idempotent` at a one-row table and its computed
output. -/
theorem C9_idempotent_witness :
    compute_metrics (DF.mk [mkRow "A" (Cell.num 2) (Cell.num 2)]) "difference"
      = { frame := DF.mk [Row.mk "A" (Cell.num 2) (Cell.num 2) (some (PF.fin 100))
            (some (PF.fin 100)) (some (PF.fin 0)) (some (PF.fin 1))], err := none } ∧
    ((compute_metrics (DF.mk [Row.mk "A" (Cell.num 2) (Cell.num 2) (some (PF.fin 100))
          (some (PF.fin 100)) (some (PF.fin 0)) (some (PF.fin 1))]) "difference").err = none ∧
     (compute_metrics (DF.mk [Row.mk "A" (Cell.num 2) (Cell.num 2) (some (PF.fin 100))
          (some (PF.fin 100)) (some (PF.fin 0)) (some (PF.fin 1))]) "difference").frame.rows.map
         Row.budget_share
       = (DF.mk [Row.mk "A" (Cell.num 2) (Cell.num 2) (some (PF.fin 100)) (some (PF.fin 100))
           (some (PF.fin 0)) (some (PF.fin 1))]).rows.map Row.budget_share ∧
     (compute_metrics (DF.mk [Row.mk "A" (Cell.num 2) (Cell.num 2) (some (PF.fin 100))
          (some (PF.fin 100)) (some (PF.fin 0)) (some (PF.fin 1))]) "difference").frame.rows.map
         Row.population_share
       = (DF.mk [Row.mk "A" (Cell.num 2) (Cell.num 2) (some (PF.fin 100)) (some (PF.fin 100))
           (some (PF.fin 0)) (some (PF.fin 1))]).rows.map Row.population_share ∧
     (compute_metrics (DF.mk [Row.mk "A" (Cell.num 2) (Cell.num 2) (some (PF.fin 100))
          (some (PF.fin 100)) (some (PF.fin 0)) (some (PF.fin 1))]) "difference").frame.rows.map
         Row.fairness_index
       = (DF.mk [Row.mk "A" (Cell.num 2) (Cell.num 2) (some (PF.fin 100)) (some (PF.fin 100))
           (some (PF.fin 0)) (some (PF.fin 1))]).rows.map Row.fairness_index ∧
     (compute_metrics (DF.mk [Row.mk "A" (Cell.num 2) (Cell.num 2) (some (PF.fin 100))
          (some (PF.fin 100)) (some (PF.fin 0)) (some (PF.fin 1))]) "difference").frame.rows.map
         Row.fairness_ratio
       = (DF.mk [Row.mk "A" (Cell.num 2) (Cell.num 2) (some (PF.fin 100)) (some (PF.fin 100))
           (some (PF.fin 0)) (some (PF.fin 1))]).rows.map Row.fairness_ratio) := by
  have h : compute_metrics (DF.mk [mkRow "A" (Cell.num 2) (Cell.num 2)]) "difference"
      = { frame := DF.mk [Row.mk "A" (Cell.num 2) (Cell.num 2) (some (PF.fin 100))
            (some (PF.fin 100)) (some (PF.fin 0)) (some (PF.fin 1))], err := none } := by
    simp only [compute_metrics, astypeFloat, parseFloat, setBudgetCell, deriveRow, shareOf,
      mkRow, String.reduceEq, if_true, if_false, List.zipWith, List.map, List.zip,
      List.zipWithAll, List.sum_cons, List.sum_nil]
    norm_num [PF.div, PF.mul, PF.add, PF.sub, PF.neg, PF.abs, PF.clip01]
  exact ⟨h, C9_idempotent _ "difference" _ h⟩

/-- Claim C10 holds: with non-zero totals and the difference method,
`fairness_index` is `budget_share - population_share` on every row, and
those values sum to exactly 0 across the table (exact rationals in the
model). -/
theorem C10_difference_sum_zero (df : DF) (bl pl : List ℚ)
    (hb : astypeFloat (df.rows.map Row.budget) = Except.ok bl)
    (hp : astypeFloat (df.rows.map Row.population) = Except.ok pl)
    (htb : bl.sum ≠ 0) (htp : pl.sum ≠ 0) :
    (compute_metrics df "difference").frame.rows.map Row.fairness_index
      = (bl.zip pl).map
          (fun bp => some (PF.fin (100 * bp.1 / bl.sum - 100 * bp.2 / pl.sum))) ∧
    ((bl.zip pl).map (fun bp => 100 * bp.1 / bl.sum - 100 * bp.2 / pl.sum)).sum = 0 := by
  have hlb : bl.length = df.rows.length := by simpa using astypeFloat_length hb
  have hlp : pl.length = df.rows.length := by simpa using astypeFloat_length hp
  constructor
  · rw [compute_metrics_ok hb hp]
    have hle : (bl.zip pl).length ≤ (List.zipWith setBudgetCell df.rows bl).length := by
      simp [hlb, hlp]
    refine map_zipWith_right (deriveRow "difference" bl.sum pl.sum) Row.fairness_index
      (fun bp => some (PF.fin (100 * bp.1 / bl.sum - 100 * bp.2 / pl.sum)))
      (fun a bp => ?_) _ _ hle
    rw [deriveRow_fi_difference, shareOf_eq _ htb, shareOf_eq _ htp, PF.sub_fin]
  · have hlen : bl.length = pl.length := by rw [hlb, hlp]
    have h1 := sum_zip_map_sub (fun b => 100 * b / bl.sum) (fun p => 100 * p / pl.sum)
      bl pl hlen
    rw [h1, sum_map_share bl htb, sum_map_share pl htp]
    norm_num

/-- Witness of `C10_difference_sum_zero` at the spec's two-row example. -/
theorem C10_difference_sum_zero_witness :
    astypeFloat ((DF.mk [mkRow "Health" (Cell.num 500) (Cell.num 1000),
        mkRow "Education" (Cell.num 500) (Cell.num 1000)]).rows.map Row.budget)
      = Except.ok [500, 500] ∧
    astypeFloat ((DF.mk [mkRow "Health" (Cell.num 500) (Cell.num 1000),
        mkRow "Education" (Cell.num 500) (Cell.num 1000)]).rows.map Row.population)
      = Except.ok [1000, 1000] ∧
    ([(500 : ℚ), 500].sum ≠ 0) ∧ ([(1000 : ℚ), 1000].sum ≠ 0) ∧
    ((compute_metrics (DF.mk [mkRow "Health" (Cell.num 500) (Cell.num 1000),
        mkRow "Education" (Cell.num 500) (Cell.num 1000)]) "difference").frame.rows.map
        Row.fairness_index
      = (([(500 : ℚ), 500]).zip [(1000 : ℚ), 1000]).map
          (fun bp => some (PF.fin (100 * bp.1 / ([(500 : ℚ), 500]).sum
            - 100 * bp.2 / ([(1000 : ℚ), 1000]).sum))) ∧
     ((([(500 : ℚ), 500]).zip [(1000 : ℚ), 1000]).map
         (fun bp => 100 * bp.1 / ([(500 : ℚ), 500]).sum
           - 100 * bp.2 / ([(1000 : ℚ), 1000]).sum)).sum = 0) :=
  ⟨rfl, rfl, by norm_num, by norm_num,
    C10_difference_sum_zero _ [500, 500] [1000, 1000] rfl rfl (by norm_num) (by norm_num)⟩

end Civic

